import Mathlib

/-!
Shallow embedding of the TFRC packet-history and loss-detection engine
(net/dccp/ccids/lib/packet_history.{c,h} together with the sequence-number
arithmetic of net/dccp/dccp.h), and proofs about it.

Machine integers are modelled as `Nat`/`Int` with explicit wrap-around:
`u64` arithmetic is performed modulo `2^64`, the 48-bit sequence space
modulo `2^48`, conversions to the C `int` type truncate to 32 bits and
re-interpret the sign bit, and mixed signed/unsigned comparisons convert
the signed operand to `u32` first, exactly as the C integer conversion
rules prescribe.
-/

namespace Tfrc

/-- u64 wrap-around subtraction: `(a - b)` computed in the C type `u64`. -/
def u64sub (a b : Nat) : Nat :=
  (a % 18446744073709551616 + 18446744073709551616 - b % 18446744073709551616) %
    18446744073709551616

/-- `dccp_delta_seqno` from dccp.h lines 300-303:
`((seqno2 << 16) - (seqno1 << 16)) >> 16`, all in `u64`.
For inputs below `2^48` this is `(seqno2 - seqno1) mod 2^48`, always
non-negative because the return type is `u64`. -/
def dccp_delta_seqno (seqno1 seqno2 : Nat) : Nat :=
  u64sub (seqno2 * 65536) (seqno1 * 65536) / 65536

/-- `after48` from dccp.h: `(s64)((seq2 << 16) - (seq1 << 16)) < 0`,
i.e. the u64 difference has its top bit set.  True iff `seq1` is
circularly strictly after `seq2`. -/
def after48 (seq1 seq2 : Nat) : Bool :=
  9223372036854775808 ≤ u64sub (seq2 * 65536) (seq1 * 65536)

/-- Truncation of an unsigned value to the C `int` type: reduce modulo
`2^32` and re-interpret bit 31 as the sign bit. -/
def toS32 (n : Nat) : Int :=
  if n % 4294967296 < 2147483648 then (n % 4294967296 : Int)
  else (n % 4294967296 : Int) - 4294967296

/-- Conversion of a C `int` value to `u32`, as performed implicitly by C
when an `int` is compared against a `u32` operand. -/
def intToU32 (d : Int) : Nat := (d % 4294967296).toNat

/-- The C comparison `n >= d` where `n` has type `u32` and `d` has type
`int`: `d` is converted to `u32` and the comparison is unsigned. -/
def cGeU32 (n : Nat) (d : Int) : Prop := intToU32 d ≤ n % 4294967296

instance (n : Nat) (d : Int) : Decidable (cGeU32 n d) := by
  unfold cGeU32; infer_instance

/-- The C comparison `n < d` where `n` has type `u32` and `d` has type
`int`: `d` is converted to `u32` and the comparison is unsigned. -/
def cLtU32 (n : Nat) (d : Int) : Prop := n % 4294967296 < intToU32 d

instance (n : Nat) (d : Int) : Decidable (cLtU32 n d) := by
  unfold cLtU32; infer_instance

/-- `SUB16` from packet_history.h: `((a) + 16 - (b)) & 0xF`, subtraction
modulo 16 of two 4-bit window-counter values. -/
def SUB16 (a b : Nat) : Nat := (a % 16 + 16 - b % 16) % 16

/-- Modelled from the spec: the configured sanity maximum for RTT samples
(`DCCP_SANE_RTT_MAX`); the macro is used by packet_history.c but its
definition is not among the source files.  The spec only requires that
samples above a configured maximum are clamped to it. -/
def DCCP_SANE_RTT_MAX : Nat := 3000000

/-- `tfrc_rx_hist_entry` from packet_history.h: one received-packet
record.  `tfrchrx_seqno` is a 48-bit bitfield, `tfrchrx_ccval` and
`tfrchrx_type` are 4-bit bitfields, `tfrchrx_ndp` is `u32`, and
`tfrchrx_tstamp` is a kernel timestamp (modelled in microseconds). -/
structure RxEntry where
  tfrchrx_seqno : Nat
  tfrchrx_ccval : Nat
  tfrchrx_type : Nat
  tfrchrx_ndp : Nat
  tfrchrx_tstamp : Int
deriving Repr, DecidableEq

/-- A received packet as seen by this module: the parsed 48-bit sequence
number (`DCCP_SKB_CB(skb)->dccpd_seq`), the 4-bit window counter and
packet type from the header, and the arrival time (the value
`ktime_get_real()` returns while the packet is being processed, modelled
in microseconds). -/
structure Packet where
  dccpd_seq : Nat
  dccph_ccval : Nat
  dccph_type : Nat
  arrival : Int
deriving Repr, DecidableEq

/-- `tfrc_rx_hist` from packet_history.h lines 80-85: the 4-slot ring,
plus the 2-bit bitfields `loss_count` and `loss_start`.  The C source
overlays the RTT-sampler candidate flag on `loss_start` via
`#define rtt_sample_prev loss_start`; the embedding keeps the single
field and mirrors the alias below. -/
structure RxHist where
  ring : Fin 4 → RxEntry
  loss_count : Nat
  loss_start : Nat

instance : DecidableEq RxHist := fun a b =>
  decidable_of_iff
    (a.ring = b.ring ∧ a.loss_count = b.loss_count ∧ a.loss_start = b.loss_start)
    (by cases a; cases b; simp)

/-- Mirror of `#define rtt_sample_prev loss_start` in packet_history.h:
the RTT sampler's candidate flag is the very same 2-bit field as the
ring's anchor index. -/
def RxHist.rtt_sample_prev (h : RxHist) : Nat := h.loss_start

/-- Store to the 2-bit bitfield `loss_count` (values are kept mod 4, as
the hardware field would). -/
def RxHist.setLossCount (h : RxHist) (v : Nat) : RxHist :=
  { h with loss_count := v % 4 }

/-- Store to the 2-bit bitfield `loss_start`. -/
def RxHist.setLossStart (h : RxHist) (v : Nat) : RxHist :=
  { h with loss_start := v % 4 }

/-- Overwrite one physical ring slot (the C code writes through the
pointer returned by an accessor; slots are overwritten in place). -/
def RxHist.writeEntry (h : RxHist) (i : Fin 4) (e : RxEntry) : RxHist :=
  { h with ring := Function.update h.ring i e }

/-- Modelled from the spec: `tfrc_rx_hist_index` is used by
packet_history.c but defined in a header not among the source files;
spec §3 gives the slot map `entry(i) = ring[(loss_start + i) mod 4]`. -/
def tfrc_rx_hist_index (h : RxHist) (n : Nat) : Fin 4 :=
  ⟨(h.loss_start + n) % 4, by omega⟩

/-- Modelled from the spec: `entry(i)`, the i-th logical ring slot. -/
def tfrc_rx_hist_entry (h : RxHist) (n : Nat) : RxEntry :=
  h.ring (tfrc_rx_hist_index h n)

/-- Modelled from the spec: `tfrc_rx_hist_loss_prev`, the anchor
`entry(0)` (spec §3: the most advanced sequence number confirmed to have
no outstanding gap before it). -/
def tfrc_rx_hist_loss_prev (h : RxHist) : RxEntry :=
  tfrc_rx_hist_entry h 0

/-- Modelled from the spec: `tfrc_rx_hist_last_rcv`, the "last received"
slot `entry(loss_count)` that `tfrc_rx_hist_add_packet` overwrites. -/
def tfrc_rx_hist_last_rcv (h : RxHist) : RxEntry :=
  tfrc_rx_hist_entry h h.loss_count

/-- `tfrc_rx_hist_entry_from_skb`: build the record stored into a ring
slot from the received packet and its NDP count (bitfield stores reduce
the values to their field widths). -/
def tfrc_rx_hist_entry_from_skb (pkt : Packet) (ndp : Nat) : RxEntry :=
  { tfrchrx_seqno := pkt.dccpd_seq % 281474976710656
    tfrchrx_ccval := pkt.dccph_ccval % 16
    tfrchrx_type := pkt.dccph_type % 16
    tfrchrx_ndp := ndp % 4294967296
    tfrchrx_tstamp := pkt.arrival }

/-- `tfrc_rx_hist_add_packet`: unconditionally overwrite the
"last received" slot with the new record. -/
def tfrc_rx_hist_add_packet (h : RxHist) (pkt : Packet) (ndp : Nat) : RxHist :=
  h.writeEntry (tfrc_rx_hist_index h h.loss_count) (tfrc_rx_hist_entry_from_skb pkt ndp)

/-- `tfrc_rx_hist_duplicate`: the C test is
`dccp_delta_seqno(loss_prev->seqno, seq) <= 0` — note that
`dccp_delta_seqno` returns `u64`, so `<= 0` holds only for equality —
followed by an equality scan of the `loss_count` pending slots. -/
def tfrc_rx_hist_duplicate (h : RxHist) (seq : Nat) : Bool :=
  if dccp_delta_seqno (tfrc_rx_hist_loss_prev h).tfrchrx_seqno seq ≤ 0 then
    true
  else
    (List.range' 1 h.loss_count).any fun i =>
      (tfrc_rx_hist_entry h i).tfrchrx_seqno == seq

/-- `tfrc_rx_hist_loss_indicated`: initialise loss detection. -/
def tfrc_rx_hist_loss_indicated (h : RxHist) : RxHist :=
  h.setLossCount 1

/-- `tfrc_rx_hist_loss_pending`: the current `loss_count`. -/
def tfrc_rx_hist_loss_pending (h : RxHist) : Nat := h.loss_count

/-- `tfrc_rx_hist_new_loss_indicated`: `int delta` is the u64 delta
truncated to C `int`; `ndp < delta` compares the `u32` argument against
that `int` (unsigned comparison after conversion).  Returns the updated
history and the C return value `tfrc_rx_hist_loss_pending(h)`. -/
def tfrc_rx_hist_new_loss_indicated (h : RxHist) (pkt : Packet) (ndp : Nat) :
    RxHist × Nat :=
  let delta := toS32 (dccp_delta_seqno (tfrc_rx_hist_last_rcv h).tfrchrx_seqno
      pkt.dccpd_seq)
  let h1 := if 1 < delta ∧ cLtU32 ndp delta then tfrc_rx_hist_loss_indicated h else h
  (h1, tfrc_rx_hist_loss_pending h1)

/-- `tfrc_rx_hist_swap`: exchange the physical slots at logical
positions `a` and `b` (three-assignment swap through a temporary). -/
def tfrc_rx_hist_swap (h : RxHist) (a b : Nat) : RxHist :=
  let idx_a := tfrc_rx_hist_index h a
  let idx_b := tfrc_rx_hist_index h b
  let r := Function.update (Function.update h.ring idx_a (h.ring idx_b)) idx_b
    (h.ring idx_a)
  { h with ring := r }

/-- `__one_after_loss` from packet_history.c lines 239-276.  The local
variables `n1`, `d12`, `d2`, `d21` have C type `int` (the u64 deltas are
truncated); `n2` is the `u32` parameter, so `n2 >= d2` is an unsigned
comparison while `n1 >= d21` is signed.  Statements are sequenced exactly
as in the source. -/
def __one_after_loss (h : RxHist) (pkt : Packet) (n2 : Nat) : RxHist :=
  let s0 := (tfrc_rx_hist_loss_prev h).tfrchrx_seqno
  let s1 := (tfrc_rx_hist_entry h 1).tfrchrx_seqno
  let s2 := pkt.dccpd_seq
  let n1 := toS32 (tfrc_rx_hist_entry h 1).tfrchrx_ndp
  let d12 := toS32 (dccp_delta_seqno s1 s2)
  if 0 < d12 then
    let h1 := h.setLossCount 2
    h1.writeEntry (tfrc_rx_hist_index h1 2) (tfrc_rx_hist_entry_from_skb pkt n2)
  else
    let d2 := toS32 (dccp_delta_seqno s0 s2)
    if d2 = 1 ∨ cGeU32 n2 d2 then
      let d21 := -d12
      if d21 = 1 ∨ d21 ≤ n1 then
        (h.setLossCount 0).setLossStart (tfrc_rx_hist_index h 1)
      else
        h.writeEntry (tfrc_rx_hist_index h 0) (tfrc_rx_hist_entry_from_skb pkt n2)
    else
      let h1 := tfrc_rx_hist_swap h 0 3
      let h2 := h1.setLossStart (tfrc_rx_hist_index h1 3)
      let h3 := h2.writeEntry (tfrc_rx_hist_index h2 1)
        (tfrc_rx_hist_entry_from_skb pkt n2)
      h3.setLossCount 2

/-- `__two_after_loss` from packet_history.c lines 279-345; returns the
updated history and the C return value (1 iff a new loss event has been
identified).  `n1`, `n2` and the deltas are C `int` locals; `n3` is the
`u32` parameter, so `n3 >= d3` is unsigned while `n1 >= d31` and
`n2 >= d2` are signed. -/
def __two_after_loss (h : RxHist) (pkt : Packet) (n3 : Nat) : RxHist × Bool :=
  let s0 := (tfrc_rx_hist_loss_prev h).tfrchrx_seqno
  let s1 := (tfrc_rx_hist_entry h 1).tfrchrx_seqno
  let s2 := (tfrc_rx_hist_entry h 2).tfrchrx_seqno
  let s3 := pkt.dccpd_seq
  let n1 := toS32 (tfrc_rx_hist_entry h 1).tfrchrx_ndp
  let d23 := toS32 (dccp_delta_seqno s2 s3)
  if 0 < d23 then
    let h1 := h.setLossCount 3
    (h1.writeEntry (tfrc_rx_hist_index h1 3) (tfrc_rx_hist_entry_from_skb pkt n3),
      true)
  else
    let d13 := toS32 (dccp_delta_seqno s1 s3)
    if 0 < d13 then
      let h1 := tfrc_rx_hist_swap h 2 3
      let h2 := h1.writeEntry (tfrc_rx_hist_index h1 2)
        (tfrc_rx_hist_entry_from_skb pkt n3)
      (h2.setLossCount 3, true)
    else
      let d31 := -d13
      let d3 := toS32 (dccp_delta_seqno s0 s3)
      if d3 = 1 ∨ cGeU32 n3 d3 then
        if d31 = 1 ∨ d31 ≤ n1 then
          let d2 := toS32 (dccp_delta_seqno s1 s2)
          let n2 := toS32 (tfrc_rx_hist_entry h 2).tfrchrx_ndp
          if d2 = 1 ∨ d2 ≤ n2 then
            ((h.setLossStart (tfrc_rx_hist_index h 2)).setLossCount 0, false)
          else
            ((h.setLossStart (tfrc_rx_hist_index h 1)).setLossCount 1, false)
        else
          (h.writeEntry (tfrc_rx_hist_index h 0)
            (tfrc_rx_hist_entry_from_skb pkt n3), false)
      else
        let h1 := tfrc_rx_hist_swap h 0 3
        let h2 := h1.setLossStart (tfrc_rx_hist_index h1 3)
        let h3 := h2.writeEntry (tfrc_rx_hist_index h2 1)
          (tfrc_rx_hist_entry_from_skb pkt n3)
        (h3.setLossCount 3, true)

/-- `tfrc_rx_hist_delta_seqno`: the mod-2^48 distance between two ring
entries; the C helper returns it as `s64`, which callers truncate to
`int` (`toS32`) themselves. -/
def tfrc_rx_hist_delta_seqno (h : RxHist) (e1 e2 : Nat) : Nat :=
  dccp_delta_seqno (tfrc_rx_hist_entry h e1).tfrchrx_seqno
    (tfrc_rx_hist_entry h e2).tfrchrx_seqno

/-- `__three_after_loss` from packet_history.c lines 357-386: recycle RX
history records after a loss interval was recorded.  All four locals have
C type `int`, so every comparison here is signed. -/
def __three_after_loss (h : RxHist) : RxHist :=
  let d2 := toS32 (tfrc_rx_hist_delta_seqno h 1 2)
  let d3 := toS32 (tfrc_rx_hist_delta_seqno h 2 3)
  let n2 := toS32 (tfrc_rx_hist_entry h 2).tfrchrx_ndp
  let n3 := toS32 (tfrc_rx_hist_entry h 3).tfrchrx_ndp
  if d2 = 1 ∨ d2 ≤ n2 then
    if d3 = 1 ∨ d3 ≤ n3 then
      (h.setLossStart (tfrc_rx_hist_index h 3)).setLossCount 0
    else
      (h.setLossStart (tfrc_rx_hist_index h 2)).setLossCount 1
  else
    (h.setLossStart (tfrc_rx_hist_index h 1)).setLossCount 2

/-- Result of `tfrc_rx_handle_loss`, instrumented for verification: the
final history, the C return value `is_new_loss`, the list of history
states at which the loss-interval sink (`tfrc_lh_interval_add`, not
among the source files) was invoked, in invocation order, and whether
the `DCCP_BUG` fault branch was taken. -/
structure LossResult where
  hist : RxHist
  is_new_loss : Bool
  sink_calls : List RxHist
  bug : Bool

/-- `tfrc_rx_handle_loss` from packet_history.c lines 400-420.  The
loss-interval database update is modelled by the oracle `sink`, which
receives the history state at the moment `tfrc_lh_interval_add` is
called and yields its return value. -/
def tfrc_rx_handle_loss (h : RxHist) (pkt : Packet) (ndp : Nat)
    (sink : RxHist → Bool) : LossResult :=
  if h.loss_count = 1 then
    { hist := __one_after_loss h pkt ndp, is_new_loss := false,
      sink_calls := [], bug := false }
  else if h.loss_count ≠ 2 then
    { hist := h, is_new_loss := false, sink_calls := [], bug := true }
  else
    let r := __two_after_loss h pkt ndp
    if r.2 then
      { hist := __three_after_loss r.1, is_new_loss := sink r.1,
        sink_calls := [r.1], bug := false }
    else
      { hist := r.1, is_new_loss := false, sink_calls := [], bug := false }

/-- `tfrc_rx_hist_alloc` (success case): `loss_count` and `loss_start`
are zeroed; the freshly allocated ring entries are uninitialised, so the
embedding takes them as a parameter. -/
def tfrc_rx_hist_alloc (ring0 : Fin 4 → RxEntry) : RxHist :=
  { ring := ring0, loss_count := 0, loss_start := 0 }

/-- `tfrc_rx_hist_rtt_last_s`: the RTT reference entry is the physical
slot `ring[0]` (not the logical anchor `entry(0)`). -/
def tfrc_rx_hist_rtt_last_s (h : RxHist) : RxEntry := h.ring 0

/-- `tfrc_rx_hist_rtt_prev_s`: `ring[h->rtt_sample_prev]`, the interim
candidate slot; `rtt_sample_prev` is the 2-bit `loss_start` field. -/
def tfrc_rx_hist_rtt_prev_s (h : RxHist) : RxEntry :=
  h.ring ⟨h.rtt_sample_prev % 4, by omega⟩

/-- Result of `tfrc_rx_hist_sample_rtt`: the updated history (the
function writes `rtt_sample_prev`, i.e. `loss_start`), the `u32` sample
(0 = no usable sample), and whether the `DCCP_BUG` branch was taken. -/
structure RttResult where
  hist : RxHist
  sample : Nat
  bug : Bool
deriving DecidableEq

/-- `tfrc_rx_hist_sample_rtt` from packet_history.c lines 479-524.
`delta_v` and `sample` are `u32`; the suboptimal-branch expression
`4 / sample * ktime_us_delta(..)` divides in `u32` and multiplies in
`s64` before truncating back to `u32`; `net_timedelta` measures from the
packet's arrival time (`ktime_get_real()` during processing). -/
def tfrc_rx_hist_sample_rtt (h : RxHist) (pkt : Packet) : RttResult :=
  let delta_v := SUB16 pkt.dccph_ccval (tfrc_rx_hist_rtt_last_s h).tfrchrx_ccval
  if delta_v < 1 ∨ 4 < delta_v then
    if h.rtt_sample_prev % 4 = 2 then
      let raw := SUB16 (tfrc_rx_hist_rtt_prev_s h).tfrchrx_ccval
        (tfrc_rx_hist_rtt_last_s h).tfrchrx_ccval
      if raw ≠ 0 then
        let sample := intToU32 (((4 / raw : Nat) : Int) *
          ((tfrc_rx_hist_rtt_prev_s h).tfrchrx_tstamp -
            (tfrc_rx_hist_rtt_last_s h).tfrchrx_tstamp))
        let sample := if DCCP_SANE_RTT_MAX < sample then DCCP_SANE_RTT_MAX else sample
        { hist := h.setLossStart 0, sample := sample, bug := false }
      else
        { hist := h.setLossStart 0, sample := 0, bug := true }
    else if delta_v < 1 then
      { hist := h.setLossStart 1, sample := 0, bug := false }
    else
      { hist := h.setLossStart 0, sample := 0, bug := false }
  else if delta_v = 4 then
    let sample := intToU32 (pkt.arrival - (tfrc_rx_hist_rtt_last_s h).tfrchrx_tstamp)
    let sample := if DCCP_SANE_RTT_MAX < sample then DCCP_SANE_RTT_MAX else sample
    { hist := h.setLossStart 0, sample := sample, bug := false }
  else
    { hist := h.setLossStart 2, sample := 0, bug := false }

/-- `tfrc_tx_hist_entry`: sequence number and send timestamp
(microseconds).  The newest-first singly linked chain is a list with the
head first. -/
structure TxEntry where
  seqno : Nat
  stamp : Int
deriving Repr, DecidableEq

/-- `tfrc_tx_hist_add`: prepend a new entry stamped `now`. -/
def tfrc_tx_hist_add (chain : List TxEntry) (seqno : Nat) (now : Int) :
    List TxEntry :=
  { seqno := seqno, stamp := now } :: chain

/-- `tfrc_tx_hist_purge`: release the whole chain. -/
def tfrc_tx_hist_purge (_chain : List TxEntry) : List TxEntry := []

/-- `tfrc_tx_hist_rtt` from packet_history.c lines 114-129: find the
first entry matching `seqno` from the head; on a match return
`ktime_us_delta(now, stamp)` as `u32` and purge every entry after the
matched one (`tfrc_tx_hist_purge(&packet->next)`); otherwise return 0
with the chain unchanged. -/
def tfrc_tx_hist_rtt (chain : List TxEntry) (seqno : Nat) (now : Int) :
    Nat × List TxEntry :=
  match chain with
  | [] => (0, [])
  | e :: rest =>
    if e.seqno = seqno then
      (intToU32 (now - e.stamp), [e])
    else
      let r := tfrc_tx_hist_rtt rest seqno now
      (r.1, e :: r.2)

/-- One invocation of a public RX-history operation, for stating
properties of arbitrary operation sequences.  The sink oracle of
`handle` stands for the external loss-interval database. -/
inductive RxOp where
  | add (pkt : Packet) (ndp : Nat)
  | dup (seq : Nat)
  | newLoss (pkt : Packet) (ndp : Nat)
  | handle (pkt : Packet) (ndp : Nat) (sink : RxHist → Bool)
  | sampleRtt (pkt : Packet)

/-- State effect of one RX-history operation (`dup` only reads). -/
def rxStep (h : RxHist) : RxOp → RxHist
  | .add pkt ndp => tfrc_rx_hist_add_packet h pkt ndp
  | .dup _ => h
  | .newLoss pkt ndp => (tfrc_rx_hist_new_loss_indicated h pkt ndp).1
  | .handle pkt ndp sink => (tfrc_rx_handle_loss h pkt ndp sink).hist
  | .sampleRtt pkt => (tfrc_rx_hist_sample_rtt h pkt).hist

/-- Run a sequence of RX-history operations. -/
def rxRun (h : RxHist) (ops : List RxOp) : RxHist :=
  ops.foldl rxStep h

/-- The invariant claimed in spec §8: `loss_count ∈ {0,1,2,3}` and the
anchor `entry(0)` is never circularly after any currently-tracked entry
`entry(1) .. entry(loss_count)`. -/
def rxInvHolds (h : RxHist) : Bool :=
  decide (h.loss_count < 4) &&
    (List.range' 1 h.loss_count).all fun i =>
      !(after48 (tfrc_rx_hist_loss_prev h).tfrchrx_seqno
        (tfrc_rx_hist_entry h i).tfrchrx_seqno)

/-! Concrete states and packets used to evaluate the code on the spec's
scenarios and on refuting inputs. -/

/-- A ring record holding sequence number `s` and zeroes elsewhere. -/
def mkE (s : Nat) : RxEntry := ⟨s, 0, 0, 0, 0⟩

/-- A data packet with sequence number `s` (window counter, type and
arrival time zero). -/
def mkP (s : Nat) : Packet := ⟨s, 0, 0, 0⟩

/-- History with every slot holding sequence 100, no loss pending. -/
def h100 : RxHist :=
  tfrc_rx_hist_alloc fun _ => mkE 100

/-- Scenario-B/C starting state of claim C5: anchor 100 at `entry(0)`,
pending sequence 103 at `entry(1)`, `loss_count = 1`. -/
def hC5 : RxHist :=
  { ring := fun i => if i = 1 then mkE 103 else mkE 100
    loss_count := 1, loss_start := 0 }

/-- A sink oracle that always reports a recorded interval. -/
def sinkT : RxHist → Bool := fun _ => true

/-- Fresh allocation whose uninitialised slots happen to hold the stale
sequence number 5. -/
def hJunk5 : RxHist := tfrc_rx_hist_alloc fun _ => mkE 5

/-- Operation sequence refuting the universal anchor invariant: receive
100, then indicate a loss for 103; `loss_count` rises to 1 before any
record is written into the pending slot, so the stale slot contents
become logically tracked. -/
def cexOps : List RxOp :=
  [.add (mkP 100) 0, .newLoss (mkP 103) 0]

/-- Fresh allocation whose slots hold sequence 100. -/
def hScen : RxHist := tfrc_rx_hist_alloc fun _ => mkE 100

/-- The spec's scenario trace A(tail)-B-C-D as the caller drives it:
receive 100; a gap opens at 103 (loss indicated, then the pending slot
is filled by `add_packet`); 102 arrives (ring reorder to two pending);
101 arrives (gap fully resolved). -/
def scenOps : List RxOp :=
  [.add (mkP 100) 0, .newLoss (mkP 103) 0, .add (mkP 103) 0,
    .handle (mkP 102) 0 sinkT, .handle (mkP 101) 0 sinkT]

/-! Small laws of the state mutators, used throughout. -/

@[simp] theorem loss_count_setLossCount (h : RxHist) (v : Nat) :
    (h.setLossCount v).loss_count = v % 4 := rfl

@[simp] theorem loss_count_setLossStart (h : RxHist) (v : Nat) :
    (h.setLossStart v).loss_count = h.loss_count := rfl

@[simp] theorem loss_count_writeEntry (h : RxHist) (i : Fin 4) (e : RxEntry) :
    (h.writeEntry i e).loss_count = h.loss_count := rfl

@[simp] theorem loss_count_swap (h : RxHist) (a b : Nat) :
    (tfrc_rx_hist_swap h a b).loss_count = h.loss_count := rfl

@[simp] theorem loss_start_setLossCount (h : RxHist) (v : Nat) :
    (h.setLossCount v).loss_start = h.loss_start := rfl

@[simp] theorem loss_start_setLossStart (h : RxHist) (v : Nat) :
    (h.setLossStart v).loss_start = v % 4 := rfl

@[simp] theorem ring_setLossCount (h : RxHist) (v : Nat) :
    (h.setLossCount v).ring = h.ring := rfl

@[simp] theorem ring_setLossStart (h : RxHist) (v : Nat) :
    (h.setLossStart v).ring = h.ring := rfl

/-- claim C1: `tfrc_rx_hist_duplicate` is claimed to return true whenever
the query sequence number is not circularly after the anchor.  Evaluating
the code at the failing input: with the anchor at 100 and `loss_count`
0, the query 99 is not after the anchor (`after48 99 100 = false`), yet
`duplicate` returns false; only exact equality with the anchor (query
100) is caught, because `dccp_delta_seqno` returns `u64` and the test
`<= 0` of an unsigned value only holds at 0. -/
theorem C1_duplicate_code_eval :
    after48 99 100 = false ∧
    tfrc_rx_hist_duplicate h100 99 = false ∧
    tfrc_rx_hist_duplicate h100 100 = true := by
  decide

/-- claim C2, counterexample: after the legal operation sequence
`add_packet(100); new_loss_indicated(103)` on a freshly allocated
history whose uninitialised slots hold the stale sequence 5, the claimed
invariant fails: `loss_count = 1` and the anchor (100) is circularly
after the tracked `entry(1)` (stale 5). -/
theorem C2_counterexample :
    rxInvHolds (rxRun hJunk5 cexOps) = false ∧
    (rxRun hJunk5 cexOps).loss_count = 1 ∧
    after48 (tfrc_rx_hist_loss_prev (rxRun hJunk5 cexOps)).tfrchrx_seqno
      (tfrc_rx_hist_entry (rxRun hJunk5 cexOps) 1).tfrchrx_seqno = true := by
  decide

/-- claim C4, counterexample: the claim computes
`d = delta(last_rcv.seq, record.seq) mod 2^48` and predicts a transition
to `loss_count = 1` with a true return whenever `d > 1` and
`ndp_count < d`.  With the anchor at 100 and a record with sequence 99
and `ndp_count` 0, `d = 2^48 - 1 > 1` and `0 < d`, yet the code returns
0 and leaves the state unchanged, because the C `int` truncation of the
delta is `-1`. -/
theorem C4_counterexample :
    1 < dccp_delta_seqno 100 99 ∧
    0 < dccp_delta_seqno 100 99 ∧
    (tfrc_rx_hist_new_loss_indicated h100 (mkP 99) 0).2 = 0 ∧
    (tfrc_rx_hist_new_loss_indicated h100 (mkP 99) 0).1 = h100 := by
  decide

/-- claim C5: two-step trace of the transition tables.  Starting from
`loss_count = 1`, anchor 100, pending 103: feeding `handle_loss` the
packet 102 reorders the ring into `loss_count = 2` with pending 102, 103
in that logical order (anchor still 100); then feeding 101 runs the
two-pending transition, fully closes the gap (`loss_count` back to 0,
anchor at the slot holding 103), invokes no loss sink, and the overall
call returns the traced `is_new_loss` value: false. -/
theorem C5_trace :
    (tfrc_rx_handle_loss hC5 (mkP 102) 0 sinkT).hist.loss_count = 2 ∧
    (tfrc_rx_hist_entry (tfrc_rx_handle_loss hC5 (mkP 102) 0 sinkT).hist
      0).tfrchrx_seqno = 100 ∧
    (tfrc_rx_hist_entry (tfrc_rx_handle_loss hC5 (mkP 102) 0 sinkT).hist
      1).tfrchrx_seqno = 102 ∧
    (tfrc_rx_hist_entry (tfrc_rx_handle_loss hC5 (mkP 102) 0 sinkT).hist
      2).tfrchrx_seqno = 103 ∧
    (tfrc_rx_handle_loss (tfrc_rx_handle_loss hC5 (mkP 102) 0 sinkT).hist
      (mkP 101) 0 sinkT).hist.loss_count = 0 ∧
    (tfrc_rx_hist_entry
      (tfrc_rx_handle_loss (tfrc_rx_handle_loss hC5 (mkP 102) 0 sinkT).hist
        (mkP 101) 0 sinkT).hist 0).tfrchrx_seqno = 103 ∧
    (tfrc_rx_handle_loss (tfrc_rx_handle_loss hC5 (mkP 102) 0 sinkT).hist
      (mkP 101) 0 sinkT).is_new_loss = false ∧
    (tfrc_rx_handle_loss (tfrc_rx_handle_loss hC5 (mkP 102) 0 sinkT).hist
      (mkP 101) 0 sinkT).sink_calls = [] := by
  decide

/-- claim C9, counterexample: the claim says a successful RTT lookup
removes the matched entry together with all older ones.  On the chain
holding exactly the entry (seqno 5, stamp 10), looking up 5 at time 14
returns 4 but leaves the matched entry in the chain (only entries after
it are purged). -/
theorem C9_counterexample :
    tfrc_tx_hist_rtt [⟨5, 10⟩] 5 14 = (4, [⟨5, 10⟩]) ∧
    (tfrc_tx_hist_rtt [⟨5, 10⟩] 5 14).2 ≠ [] := by
  decide

/-- claim C8: entering `tfrc_rx_handle_loss` with `loss_count` neither 1
nor 2 takes the dedicated `DCCP_BUG` fault branch: the history is left
unchanged, the loss sink is never invoked, and the call returns false. -/
theorem C8_invalid_loss_count (h : RxHist) (pkt : Packet) (ndp : Nat)
    (sink : RxHist → Bool) (hn1 : h.loss_count ≠ 1) (hn2 : h.loss_count ≠ 2) :
    tfrc_rx_handle_loss h pkt ndp sink =
      { hist := h, is_new_loss := false, sink_calls := [], bug := true } := by
  unfold tfrc_rx_handle_loss
  simp [hn1, hn2]

/-- Witness for C8 at `loss_count = 0`. -/
theorem C8_invalid_loss_count_witness :
    tfrc_rx_handle_loss h100 (mkP 50) 0 sinkT =
      { hist := h100, is_new_loss := false, sink_calls := [], bug := true } :=
  C8_invalid_loss_count h100 (mkP 50) 0 sinkT (by decide) (by decide)

/-- claim C3: the loss sink is invoked exactly once per call — namely
when the call enters with `loss_count = 2` and the two-pending
transition signals a confirmed loss — and that single invocation sees
the history state before the three-pending housekeeping transition
recycles it; in every other case the sink is not invoked and the call
returns false. -/
theorem C3_sink_once (h : RxHist) (pkt : Packet) (ndp : Nat)
    (sink : RxHist → Bool) :
    (h.loss_count = 2 → (__two_after_loss h pkt ndp).2 = true →
      (tfrc_rx_handle_loss h pkt ndp sink).sink_calls =
        [(__two_after_loss h pkt ndp).1] ∧
      (tfrc_rx_handle_loss h pkt ndp sink).hist =
        __three_after_loss (__two_after_loss h pkt ndp).1 ∧
      (tfrc_rx_handle_loss h pkt ndp sink).is_new_loss =
        sink (__two_after_loss h pkt ndp).1) ∧
    (h.loss_count ≠ 2 ∨ (__two_after_loss h pkt ndp).2 = false →
      (tfrc_rx_handle_loss h pkt ndp sink).sink_calls = [] ∧
      (tfrc_rx_handle_loss h pkt ndp sink).is_new_loss = false) ∧
    (h.loss_count = 1 →
      (tfrc_rx_handle_loss h pkt ndp sink).sink_calls = [] ∧
      (tfrc_rx_handle_loss h pkt ndp sink).is_new_loss = false) := by
  refine ⟨?_, ?_, ?_⟩
  · intro hc2 hr
    have hn1 : ¬h.loss_count = 1 := by omega
    unfold tfrc_rx_handle_loss
    simp [hn1, hc2, hr]
  · rintro (hne | hfalse)
    · by_cases hc1 : h.loss_count = 1
      · unfold tfrc_rx_handle_loss
        simp [hc1]
      · unfold tfrc_rx_handle_loss
        simp [hc1, hne]
    · by_cases hc1 : h.loss_count = 1
      · unfold tfrc_rx_handle_loss
        simp [hc1]
      · by_cases hc2 : h.loss_count = 2
        · unfold tfrc_rx_handle_loss
          simp [hc1, hc2, hfalse]
        · unfold tfrc_rx_handle_loss
          simp [hc1, hc2]
  · intro hc1
    unfold tfrc_rx_handle_loss
    simp [hc1]

/-- The two-pending state reached from `hC5` after packet 102. -/
def hTwo : RxHist := (tfrc_rx_handle_loss hC5 (mkP 102) 0 sinkT).hist

/-- Witness for C3: from the two-pending state, packet 104 extends the
gap, the two-pending transition confirms a loss, and the sink is invoked
exactly once on the pre-housekeeping state; also, a `loss_count = 1`
entry invokes no sink and returns false. -/
theorem C3_sink_once_witness :
    (tfrc_rx_handle_loss hTwo (mkP 104) 0 sinkT).sink_calls =
      [(__two_after_loss hTwo (mkP 104) 0).1] ∧
    (tfrc_rx_handle_loss hTwo (mkP 104) 0 sinkT).hist =
      __three_after_loss (__two_after_loss hTwo (mkP 104) 0).1 ∧
    (tfrc_rx_handle_loss hC5 (mkP 102) 0 sinkT).sink_calls = [] ∧
    (tfrc_rx_handle_loss hC5 (mkP 102) 0 sinkT).is_new_loss = false := by
  have h1 := (C3_sink_once hTwo (mkP 104) 0 sinkT).1 (by decide) (by decide)
  have h2 := (C3_sink_once hC5 (mkP 102) 0 sinkT).2.2 (by decide)
  exact ⟨h1.1, h1.2.1, h2.1, h2.2⟩

/-- claim C4 (amended): with `loss_count = 0`, writing `d` for the
mod-2^48 delta truncated to the C `int` type: if `d > 1` and
`ndp < d` (unsigned comparison of the `u32` NDP count against `d`
converted to `u32`), the call sets `loss_count` to 1 — leaving the ring
and `loss_start` untouched — and returns 1; otherwise it returns 0 and
leaves the whole state unchanged. -/
theorem C4_amended (h : RxHist) (pkt : Packet) (ndp : Nat)
    (h0 : h.loss_count = 0) :
    ((1 < toS32 (dccp_delta_seqno (tfrc_rx_hist_last_rcv h).tfrchrx_seqno
        pkt.dccpd_seq) ∧
      cLtU32 ndp (toS32 (dccp_delta_seqno (tfrc_rx_hist_last_rcv h).tfrchrx_seqno
        pkt.dccpd_seq)) →
      (tfrc_rx_hist_new_loss_indicated h pkt ndp).1.loss_count = 1 ∧
      (tfrc_rx_hist_new_loss_indicated h pkt ndp).1.ring = h.ring ∧
      (tfrc_rx_hist_new_loss_indicated h pkt ndp).1.loss_start = h.loss_start ∧
      (tfrc_rx_hist_new_loss_indicated h pkt ndp).2 = 1)) ∧
    (¬(1 < toS32 (dccp_delta_seqno (tfrc_rx_hist_last_rcv h).tfrchrx_seqno
        pkt.dccpd_seq) ∧
      cLtU32 ndp (toS32 (dccp_delta_seqno (tfrc_rx_hist_last_rcv h).tfrchrx_seqno
        pkt.dccpd_seq))) →
      tfrc_rx_hist_new_loss_indicated h pkt ndp = (h, 0)) := by
  constructor
  · intro hc
    unfold tfrc_rx_hist_new_loss_indicated tfrc_rx_hist_loss_indicated
      tfrc_rx_hist_loss_pending
    simp [hc]
  · intro hc
    unfold tfrc_rx_hist_new_loss_indicated tfrc_rx_hist_loss_pending
    simp [hc, h0]

/-- Witness for C4 (amended): the spec's Scenario B — anchor 100, record
with sequence 103 and NDP count 0 — indicates a new loss: `loss_count`
becomes 1 and the call returns 1. -/
theorem C4_amended_witness :
    (tfrc_rx_hist_new_loss_indicated h100 (mkP 103) 0).1.loss_count = 1 ∧
    (tfrc_rx_hist_new_loss_indicated h100 (mkP 103) 0).2 = 1 := by
  have := (C4_amended h100 (mkP 103) 0 (by decide)).1 (by decide)
  exact ⟨this.1, this.2.2.2⟩

/-! `loss_count` stays a 2-bit value across every operation. -/

theorem one_after_loss_lossCount (h : RxHist) (pkt : Packet) (n2 : Nat)
    (hlt : h.loss_count < 4) : (__one_after_loss h pkt n2).loss_count < 4 := by
  simp only [__one_after_loss]
  split_ifs <;> simp [hlt]

theorem two_after_loss_lossCount (h : RxHist) (pkt : Packet) (n3 : Nat)
    (hlt : h.loss_count < 4) : (__two_after_loss h pkt n3).1.loss_count < 4 := by
  simp only [__two_after_loss]
  split_ifs <;> simp [hlt]

theorem three_after_loss_lossCount (h : RxHist) :
    (__three_after_loss h).loss_count < 4 := by
  simp only [__three_after_loss]
  split_ifs <;> simp

theorem handle_loss_lossCount (h : RxHist) (pkt : Packet) (ndp : Nat)
    (sink : RxHist → Bool) (hlt : h.loss_count < 4) :
    (tfrc_rx_handle_loss h pkt ndp sink).hist.loss_count < 4 := by
  simp only [tfrc_rx_handle_loss]
  split_ifs
  · exact one_after_loss_lossCount h pkt ndp hlt
  · exact hlt
  · exact three_after_loss_lossCount _
  · exact two_after_loss_lossCount h pkt ndp hlt

theorem new_loss_indicated_lossCount (h : RxHist) (pkt : Packet) (ndp : Nat)
    (hlt : h.loss_count < 4) :
    (tfrc_rx_hist_new_loss_indicated h pkt ndp).1.loss_count < 4 := by
  simp only [tfrc_rx_hist_new_loss_indicated, tfrc_rx_hist_loss_indicated]
  split_ifs <;> simp [hlt]

theorem sample_rtt_lossCount (h : RxHist) (pkt : Packet) :
    (tfrc_rx_hist_sample_rtt h pkt).hist.loss_count = h.loss_count := by
  simp only [tfrc_rx_hist_sample_rtt]
  split_ifs <;> simp

theorem rxStep_lossCount (h : RxHist) (op : RxOp) (hlt : h.loss_count < 4) :
    (rxStep h op).loss_count < 4 := by
  cases op with
  | add pkt ndp => exact hlt
  | dup seq => exact hlt
  | newLoss pkt ndp => exact new_loss_indicated_lossCount h pkt ndp hlt
  | handle pkt ndp sink => exact handle_loss_lossCount h pkt ndp sink hlt
  | sampleRtt pkt => rw [rxStep, sample_rtt_lossCount]; exact hlt

theorem rxRun_lossCount (ops : List RxOp) (h : RxHist) (hlt : h.loss_count < 4) :
    (rxRun h ops).loss_count < 4 := by
  induction ops generalizing h with
  | nil => exact hlt
  | cons op rest ih =>
    rw [rxRun, List.foldl_cons]
    exact ih (rxStep h op) (rxStep_lossCount h op hlt)

/-- claim C2 (amended): `loss_count ∈ {0,1,2,3}` holds after any
sequence of operations on an allocated history (the field is a 2-bit
store). The anchor-not-after property does not survive arbitrary
sequences (see the counterexample: a stale slot becomes logically
tracked the moment `loss_count` rises, before the pending slot is
rewritten); it does hold at every step of the spec's documented scenario
trace B–D when the allocated ring starts consistent with the anchor. -/
theorem C2_amended :
    (∀ (ring0 : Fin 4 → RxEntry) (ops : List RxOp),
      (rxRun (tfrc_rx_hist_alloc ring0) ops).loss_count < 4) ∧
    ((List.range 6).all fun k => rxInvHolds (rxRun hScen (scenOps.take k))) = true := by
  constructor
  · intro ring0 ops
    exact rxRun_lossCount ops _ (by simp [tfrc_rx_hist_alloc])
  · decide

/-- Witness for C2 (amended) at a concrete allocation and operation
sequence. -/
theorem C2_amended_witness :
    (rxRun (tfrc_rx_hist_alloc fun _ => mkE 5) cexOps).loss_count < 4 :=
  C2_amended.1 (fun _ => mkE 5) cexOps

/-! RTT sampler properties. -/

theorem intToU32_of_bounds (d : Int) (h0 : 0 ≤ d) (h1 : d < 4294967296) :
    intToU32 d = d.toNat := by
  unfold intToU32
  rw [Int.emod_eq_of_lt h0 h1]

theorem clamp_eq_min (s : Nat) :
    (if DCCP_SANE_RTT_MAX < s then DCCP_SANE_RTT_MAX else s) =
      min s DCCP_SANE_RTT_MAX := by
  split <;> omega

/-- claim C6 (amended): when the mod-16 window-counter delta is exactly
4, the sample is the u32 truncation of the elapsed time since the
reference entry's arrival timestamp, clamped at the sanity maximum —
equal to the elapsed time clamped at the maximum whenever the elapsed
time is representable in u32; the returned sample never exceeds the
maximum in any branch; and a delta of 0 with no interim candidate
stored returns 0 (no usable sample). -/
theorem C6_amended (h : RxHist) (pkt : Packet) :
    (SUB16 pkt.dccph_ccval (tfrc_rx_hist_rtt_last_s h).tfrchrx_ccval = 4 →
      (tfrc_rx_hist_sample_rtt h pkt).sample =
        min (intToU32 (pkt.arrival - (tfrc_rx_hist_rtt_last_s h).tfrchrx_tstamp))
          DCCP_SANE_RTT_MAX ∧
      (0 ≤ pkt.arrival - (tfrc_rx_hist_rtt_last_s h).tfrchrx_tstamp →
        pkt.arrival - (tfrc_rx_hist_rtt_last_s h).tfrchrx_tstamp < 4294967296 →
        (tfrc_rx_hist_sample_rtt h pkt).sample =
          min (pkt.arrival - (tfrc_rx_hist_rtt_last_s h).tfrchrx_tstamp).toNat
            DCCP_SANE_RTT_MAX)) ∧
    (tfrc_rx_hist_sample_rtt h pkt).sample ≤ DCCP_SANE_RTT_MAX ∧
    (SUB16 pkt.dccph_ccval (tfrc_rx_hist_rtt_last_s h).tfrchrx_ccval = 0 →
      h.rtt_sample_prev % 4 ≠ 2 →
      (tfrc_rx_hist_sample_rtt h pkt).sample = 0) := by
  refine ⟨?_, ?_, ?_⟩
  · intro h4
    have hc1 : ¬(SUB16 pkt.dccph_ccval (tfrc_rx_hist_rtt_last_s h).tfrchrx_ccval < 1 ∨
        4 < SUB16 pkt.dccph_ccval (tfrc_rx_hist_rtt_last_s h).tfrchrx_ccval) := by
      omega
    have huncond : (tfrc_rx_hist_sample_rtt h pkt).sample =
        min (intToU32 (pkt.arrival - (tfrc_rx_hist_rtt_last_s h).tfrchrx_tstamp))
          DCCP_SANE_RTT_MAX := by
      simp only [tfrc_rx_hist_sample_rtt]
      rw [if_neg hc1, if_pos h4, clamp_eq_min]
    refine ⟨huncond, fun hnn hlt => ?_⟩
    rw [huncond, intToU32_of_bounds _ hnn hlt]
  · simp only [tfrc_rx_hist_sample_rtt]
    split_ifs <;> dsimp only <;> omega
  · intro h0 hp
    simp [tfrc_rx_hist_sample_rtt, h0, hp]

/-- Reference state for the sampler: `ring[0]` has window counter 1 and
arrival timestamp 2000. -/
def hRtt : RxHist :=
  { ring := fun i => if i = 0 then ⟨100, 1, 0, 0, 2000⟩ else mkE 50
    loss_count := 0, loss_start := 0 }

/-- claim C6, counterexample: the claim says any produced sample above
the configured sanity maximum is replaced by that maximum.  At a
window-counter delta of exactly 4 with an elapsed time of 2^32 + 5
microseconds — far above the maximum — the code truncates the s64
elapsed time to u32 before the clamp and returns 5, not the maximum. -/
theorem C6_counterexample :
    SUB16 (5 : Nat) (tfrc_rx_hist_rtt_last_s hRtt).tfrchrx_ccval = 4 ∧
    (4294969301 : Int) - (tfrc_rx_hist_rtt_last_s hRtt).tfrchrx_tstamp =
      4294967301 ∧
    DCCP_SANE_RTT_MAX < 4294967301 ∧
    (tfrc_rx_hist_sample_rtt hRtt ⟨200, 5, 0, 4294969301⟩).sample = 5 ∧
    (tfrc_rx_hist_sample_rtt hRtt ⟨200, 5, 0, 4294969301⟩).sample ≠
      DCCP_SANE_RTT_MAX := by
  decide

/-- Witness for C6 (amended): window counters differing by exactly 4
with arrival timestamps 1000 apart yield a sample of 1000; a delta of 0
with no candidate stored yields 0. -/
theorem C6_amended_witness :
    (tfrc_rx_hist_sample_rtt hRtt ⟨200, 5, 0, 3000⟩).sample = 1000 ∧
    (tfrc_rx_hist_sample_rtt hRtt ⟨200, 1, 0, 3000⟩).sample = 0 := by
  constructor
  · exact (((C6_amended hRtt ⟨200, 5, 0, 3000⟩).1 (by decide)).2 (by decide)
      (by decide)).trans (by decide)
  · exact (C6_amended hRtt ⟨200, 1, 0, 3000⟩).2.2 (by decide) (by decide)

/-- claim C7: in the ambiguous branch with a stored candidate, when
`raw = (prev.window_counter − last.window_counter) mod 16` is zero the
sampler performs no division: it takes the fault-report branch, returns
0 (no sample) and resets the candidate flag. -/
theorem C7_no_div_by_zero (h : RxHist) (pkt : Packet)
    (hdv : SUB16 pkt.dccph_ccval (tfrc_rx_hist_rtt_last_s h).tfrchrx_ccval < 1 ∨
      4 < SUB16 pkt.dccph_ccval (tfrc_rx_hist_rtt_last_s h).tfrchrx_ccval)
    (hprev : h.rtt_sample_prev % 4 = 2)
    (hraw : SUB16 (tfrc_rx_hist_rtt_prev_s h).tfrchrx_ccval
      (tfrc_rx_hist_rtt_last_s h).tfrchrx_ccval = 0) :
    tfrc_rx_hist_sample_rtt h pkt =
      { hist := h.setLossStart 0, sample := 0, bug := true } := by
  simp only [tfrc_rx_hist_sample_rtt]
  rw [if_pos hdv, if_pos hprev]
  simp [hraw]

/-- Candidate state with equal window counters in `ring[0]` and
`ring[2]` (so `raw = 0`) and the candidate flag set. -/
def hRaw : RxHist :=
  { ring := fun i => if i = 0 then ⟨100, 1, 0, 0, 2000⟩
      else if i = 2 then ⟨90, 1, 0, 0, 2500⟩ else mkE 50
    loss_count := 0, loss_start := 2 }

/-- Witness for C7 at a concrete `raw = 0` state. -/
theorem C7_no_div_by_zero_witness :
    tfrc_rx_hist_sample_rtt hRaw ⟨200, 1, 0, 9999⟩ =
      { hist := hRaw.setLossStart 0, sample := 0, bug := true } :=
  C7_no_div_by_zero hRaw ⟨200, 1, 0, 9999⟩ (Or.inl (by decide)) (by decide)
    (by decide)

/-- claim C10: `sample_rtt` is not read-only on the loss-detection
state.  The candidate flag `rtt_sample_prev` is the same field as
`loss_start`; every deferring call (delta 0 without a candidate, or
delta 1–3) writes 1 resp. 2 into `loss_start`, every call that produces
or abandons a sample resets `loss_start` to 0; the ring and
`loss_count` are untouched; and the sampler's reference entry is the
physical slot `ring[0]`, whose index coincides with the logical anchor
`entry(0)` exactly when `loss_start` is 0. -/
theorem C10_sampler_aliasing (h : RxHist) (pkt : Packet) :
    h.rtt_sample_prev = h.loss_start ∧
    (SUB16 pkt.dccph_ccval (tfrc_rx_hist_rtt_last_s h).tfrchrx_ccval = 0 →
      h.rtt_sample_prev % 4 ≠ 2 →
      (tfrc_rx_hist_sample_rtt h pkt).hist.loss_start = 1) ∧
    (1 ≤ SUB16 pkt.dccph_ccval (tfrc_rx_hist_rtt_last_s h).tfrchrx_ccval →
      SUB16 pkt.dccph_ccval (tfrc_rx_hist_rtt_last_s h).tfrchrx_ccval ≤ 3 →
      (tfrc_rx_hist_sample_rtt h pkt).hist.loss_start = 2) ∧
    (4 ≤ SUB16 pkt.dccph_ccval (tfrc_rx_hist_rtt_last_s h).tfrchrx_ccval ∨
      (SUB16 pkt.dccph_ccval (tfrc_rx_hist_rtt_last_s h).tfrchrx_ccval = 0 ∧
        h.rtt_sample_prev % 4 = 2) →
      (tfrc_rx_hist_sample_rtt h pkt).hist.loss_start = 0) ∧
    (tfrc_rx_hist_sample_rtt h pkt).hist.ring = h.ring ∧
    (tfrc_rx_hist_sample_rtt h pkt).hist.loss_count = h.loss_count ∧
    tfrc_rx_hist_rtt_last_s h = h.ring 0 ∧
    (tfrc_rx_hist_index h 0 = (0 : Fin 4) ↔ h.loss_start % 4 = 0) := by
  refine ⟨rfl, ?_, ?_, ?_, ?_, ?_, rfl, ?_⟩
  · intro h0 hp
    simp [tfrc_rx_hist_sample_rtt, h0, hp]
  · intro h1 h3
    have hne : ¬(SUB16 pkt.dccph_ccval (tfrc_rx_hist_rtt_last_s h).tfrchrx_ccval < 1 ∨
        4 < SUB16 pkt.dccph_ccval (tfrc_rx_hist_rtt_last_s h).tfrchrx_ccval) := by
      omega
    have hne4 : ¬SUB16 pkt.dccph_ccval (tfrc_rx_hist_rtt_last_s h).tfrchrx_ccval = 4 := by
      omega
    simp only [tfrc_rx_hist_sample_rtt]
    rw [if_neg hne, if_neg hne4]
    rfl
  · rintro (h4 | ⟨h0, hp⟩)
    · simp only [tfrc_rx_hist_sample_rtt]
      split_ifs <;> first | rfl | omega
    · simp only [tfrc_rx_hist_sample_rtt, h0, hp]
      split_ifs <;> simp_all
  · simp only [tfrc_rx_hist_sample_rtt]
    split_ifs <;> simp
  · simp only [tfrc_rx_hist_sample_rtt]
    split_ifs <;> simp
  · simp [tfrc_rx_hist_index, Fin.ext_iff]

/-- Witness for C10 at concrete deferring and producing calls. -/
theorem C10_sampler_aliasing_witness :
    (tfrc_rx_hist_sample_rtt hRtt ⟨200, 1, 0, 3000⟩).hist.loss_start = 1 ∧
    (tfrc_rx_hist_sample_rtt hRtt ⟨200, 3, 0, 3000⟩).hist.loss_start = 2 ∧
    (tfrc_rx_hist_sample_rtt hRtt ⟨200, 5, 0, 3000⟩).hist.loss_start = 0 := by
  refine ⟨?_, ?_, ?_⟩
  · exact (C10_sampler_aliasing hRtt ⟨200, 1, 0, 3000⟩).2.1 (by decide) (by decide)
  · exact (C10_sampler_aliasing hRtt ⟨200, 3, 0, 3000⟩).2.2.1 (by decide) (by decide)
  · exact (C10_sampler_aliasing hRtt ⟨200, 5, 0, 3000⟩).2.2.2.1 (Or.inl (by decide))

/-! TX history properties. -/

theorem tx_rtt_no_match (seqno : Nat) (now : Int) :
    ∀ l : List TxEntry, (∀ x ∈ l, x.seqno ≠ seqno) →
      tfrc_tx_hist_rtt l seqno now = (0, l) := by
  intro l
  induction l with
  | nil => intro _; rfl
  | cons a rest ih =>
    intro hl
    have ha : a.seqno ≠ seqno := hl a (by simp)
    have hrest : ∀ x ∈ rest, x.seqno ≠ seqno := fun x hx => hl x (by simp [hx])
    simp only [tfrc_tx_hist_rtt, ha, if_false, ih hrest, if_neg]

theorem tx_rtt_match (seqno : Nat) (now : Int) :
    ∀ (pre : List TxEntry) (e : TxEntry) (post : List TxEntry),
      (∀ x ∈ pre, x.seqno ≠ seqno) → e.seqno = seqno →
      tfrc_tx_hist_rtt (pre ++ e :: post) seqno now =
        (intToU32 (now - e.stamp), pre ++ [e]) := by
  intro pre
  induction pre with
  | nil =>
    intro e post _ he
    simp [tfrc_tx_hist_rtt, he]
  | cons a rest ih =>
    intro e post hpre he
    have ha : a.seqno ≠ seqno := hpre a (by simp)
    have hrest : ∀ x ∈ rest, x.seqno ≠ seqno := fun x hx => hpre x (by simp [hx])
    simp only [List.cons_append, tfrc_tx_hist_rtt]
    rw [if_neg ha]
    simp only [List.append_eq, ih e post hrest he]

/-- claim C9 (amended): if no entry matches, `tfrc_tx_hist_rtt` returns
0 with the chain unchanged; if an entry matches, the call returns
`now − stamp` (as the `u32` the C code stores it in; equal to the exact
difference whenever that is representable) and purges exactly the
entries strictly older than the match — the matched entry and all newer
entries remain. -/
theorem C9_amended (seqno : Nat) (now : Int) :
    (∀ l : List TxEntry, (∀ x ∈ l, x.seqno ≠ seqno) →
      tfrc_tx_hist_rtt l seqno now = (0, l)) ∧
    (∀ (pre : List TxEntry) (e : TxEntry) (post : List TxEntry),
      (∀ x ∈ pre, x.seqno ≠ seqno) → e.seqno = seqno →
      tfrc_tx_hist_rtt (pre ++ e :: post) seqno now =
        (intToU32 (now - e.stamp), pre ++ [e]) ∧
      (0 ≤ now - e.stamp → now - e.stamp < 4294967296 →
        (tfrc_tx_hist_rtt (pre ++ e :: post) seqno now).1 =
          (now - e.stamp).toNat)) := by
  refine ⟨tx_rtt_no_match seqno now, ?_⟩
  intro pre e post hpre he
  have hm := tx_rtt_match seqno now pre e post hpre he
  refine ⟨hm, fun h0 h1 => ?_⟩
  rw [hm, intToU32_of_bounds _ h0 h1]

/-- Witness for C9 (amended): on the chain 7, 5, 3 a lookup of 5 at time
64 returns 14 and keeps exactly the entries 7 and 5. -/
theorem C9_amended_witness :
    tfrc_tx_hist_rtt [⟨7, 70⟩, ⟨5, 50⟩, ⟨3, 30⟩] 5 64 = (14, [⟨7, 70⟩, ⟨5, 50⟩]) ∧
    tfrc_tx_hist_rtt [⟨7, 70⟩, ⟨3, 30⟩] 5 64 = (0, [⟨7, 70⟩, ⟨3, 30⟩]) := by
  constructor
  · exact (((C9_amended 5 64).2 [⟨7, 70⟩] ⟨5, 50⟩ [⟨3, 30⟩] (by decide)
      rfl).1).trans (by decide)
  · exact (C9_amended 5 64).1 [⟨7, 70⟩, ⟨3, 30⟩] (by decide)

end Tfrc
